import Mathlib

/-!
Verification of the Hawk disk-drive emulation core (hawk.c).

The development shallowly embeds the timing model and the track codec of
the source file.  The repository ships only hawk.c; the headers hawk.h and
scheduler.h (physical-format constants, the unit structure layout, the
event structure) are not in the sources, so those parts are modelled from
the specification and marked as such.  Machine integers are modelled as
Nat (unsigned) and Int (signed); the only place a 64-bit wraparound is
observable is the wall-clock sum in the rotation query, where the
reduction modulo 2 ^ 64 is kept explicit.
-/

/-- Modelled from the spec: the physical-format constants of hawk.h, which
is not under src/.  The spec treats them as fixed configuration (sectors
per track, raw bits per sector, sector byte size, gap length, sync length,
rotation period, bits per ns, sector period, cylinder count), without
numeric values, so they are carried as parameters. -/
structure HawkConsts where
  num_cylinders : Nat
  sector_bytes : Nat
  sects_per_trk : Nat
  gap_bits : Nat
  sync_bits : Nat
  raw_sector_bits : Nat
  raw_track_bits : Nat
  rotation_ns : Nat
  sector_ns : Nat
  bit_ns : Nat

/-- Modelled from the spec: ONE_MILISECOND_NS of the missing scheduler.h;
the clock counts nanoseconds, so one millisecond is 1000000 ns. -/
def ONE_MILISECOND_NS : Nat := 1000000

/-- Modelled from the spec: the backing persistent store (a flat
byte-addressable file behind the fd of the unit).  seekFail models an fd
on which the positioning call fails; a fixed-length read succeeds exactly
when it lies entirely below the file size, matching the short-read check
of the source. -/
structure BackingStore where
  size : Nat
  byteAt : Nat → Nat
  seekFail : Bool

/-- Modelled from the spec: the drive-unit record of the missing hawk.h,
with the fields hawk.c uses.  Flags are the 0/1 integers the source
assigns; data_ptr is signed (hawk_rewind compares it against 0); the
track buffer is a bit-cell array indexed by the cursor. -/
structure HawkUnit where
  unit_num : Nat
  seek_error : Nat
  on_cyl : Nat
  seeking : Nat
  addr_ack : Nat
  addr_int : Nat
  current_track : Nat
  fault : Nat
  data_ptr : Int
  current_track_data : Int → Nat
  head_pos : Nat
  sector_addr : Nat
  rotation_offset : Nat

/-- Modelled from the spec: the payload of the one-shot seek event
(requested delay in ns, and the pending-error flag injected on an IO
failure).  The callback is always hawk_seek_callback, so it is not a
field. -/
structure SeekEvent where
  delta_ns : Nat
  seek_error : Nat

/-- Modelled from the spec: the payload of the one-shot rotation event.
The delay is computed through a signed 64-bit intermediate in the
source. -/
structure RotationEvent where
  delta_ns : Int
  in_process : Nat

/-- One step of the bit-store loops of hawk.c: store one bit cell at the
cursor and advance the cursor (the common body of hawk_set_bits and
hawk_write_bits). -/
def track_write (u : HawkUnit) (bit : Nat) : HawkUnit :=
  { u with
    current_track_data := fun i => if i = u.data_ptr then bit else u.current_track_data i,
    data_ptr := u.data_ptr + 1 }

/-- hawk_set_bits (hawk.c lines 251-257): write a run of count copies of
val masked to one bit, advancing the cursor by count. -/
def hawk_set_bits (u : HawkUnit) (count : Nat) (val : Nat) : HawkUnit :=
  match count with
  | 0 => u
  | n + 1 => hawk_set_bits (track_write u (val % 2)) n val

/-- hawk_write_bits (hawk.c lines 238-249), translated literally.  The
loop guard is, verbatim, if (count--) return; executed before any store:
with a nonzero count the first guard test fires and the function returns
having written nothing, and with count = 0 exactly one bit (bit 7 of the
first byte) is stored before the decremented counter trips the guard.
The count is the C int argument. -/
def hawk_write_bits (u : HawkUnit) (count : Int) (data : List Nat) : HawkUnit :=
  if count ≠ 0 then u
  else track_write u ((data.headD 0 >>> 7) &&& 1)

/-- hawk_read_bits (hawk.c lines 216-230), translated literally.  The
loop body stores the cell shifted into bit 7 (then 6) of a byte and the
guard is if (--count), so the function returns after one bit unless
count = 1, in which case it returns after two bits; exactly one output
byte is ever produced.  Cells are uint8, so the shifted bit is reduced
modulo 256. -/
def hawk_read_bits (u : HawkUnit) (count : Int) : HawkUnit × List Nat :=
  let byte1 := (u.current_track_data u.data_ptr <<< 7) % 256
  if count - 1 ≠ 0 then
    ({ u with data_ptr := u.data_ptr + 1 }, [byte1])
  else
    let byte2 := byte1 ||| ((u.current_track_data (u.data_ptr + 1) <<< 6) % 256)
    ({ u with data_ptr := u.data_ptr + 2 }, [byte2])

/-- hawk_rewind (hawk.c lines 232-236): move the cursor back by count,
wrapping once past zero by the raw track length. -/
def hawk_rewind (cs : HawkConsts) (u : HawkUnit) (count : Int) : HawkUnit :=
  let p := u.data_ptr - count
  { u with data_ptr := if p < 0 then p + (cs.raw_track_bits : Int) else p }

/-- Result of the track materialization (hawk_buffer_track): the 0/1
return of the C function as a Bool, the unit as left by the procedure,
and two traces of the backing-store interaction: the start offsets of
the fixed-length reads performed, and per sector the bytes handed to the
data-field write call. -/
structure BTResult where
  ok : Bool
  unit : HawkUnit
  reads : List Nat
  dataBufs : List (List Nat)

/-- The first half of one iteration of the sector loop of
hawk_buffer_track (hawk.c lines 61-85): place the cursor at the start of
the raw sector span, then emit the first gap, the first sync field, the
4-byte address field and the second gap and sync field.  The address word
is a uint16, so the packed value is reduced modulo 65536 and the check
word is its 16-bit complement. -/
def hawk_sector_header (cs : HawkConsts) (cyl head sector : Nat) (u : HawkUnit) : HawkUnit :=
  let u1 := { u with data_ptr := ((sector * cs.raw_sector_bits : Nat) : Int) }
  -- ~120 bit gap, to compensate mechanical jitter
  let u2 := hawk_set_bits u1 cs.gap_bits 0
  -- sync: 87 zeros, followed by a one
  let u3 := hawk_set_bits u2 (cs.sync_bits - 1) 0
  let u4 := hawk_set_bits u3 1 1
  -- sector address word and its complement, uint16
  let addr := (((cyl <<< 8) ||| (head <<< 4)) ||| sector) % 65536
  let check_word := addr ^^^ 65535
  let addr_data := [(addr >>> 8) &&& 255, addr &&& 255,
                    (check_word >>> 8) &&& 255, check_word &&& 255]
  let u5 := hawk_write_bits u4 32 addr_data
  -- second gap
  let u6 := hawk_set_bits u5 cs.gap_bits 0
  -- another sync
  let u7 := hawk_set_bits u6 (cs.sync_bits - 1) 0
  hawk_set_bits u7 1 1

/-- The sector loop of hawk_buffer_track (hawk.c lines 60-101), one
iteration per remaining sector.  pos is the file position (the initial
lseek offset plus one sector length per completed read); sector is the
loop counter.  Each iteration emits the sector header, then performs the
fixed-length read (failing the whole call on a short read), emits the
data field, the CRC placeholder and the half-gap trailer, and recurs. -/
def hawk_buffer_sectors (cs : HawkConsts) (store : BackingStore) (cyl head : Nat)
    (u : HawkUnit) (pos sector : Nat) : Nat → BTResult
  | 0 => ⟨true, u, [], []⟩
  | rem + 1 =>
    let u8 := hawk_sector_header cs cyl head sector u
    -- sector data: fixed-length read, fail the whole call on short read
    if pos + cs.sector_bytes ≤ store.size then
      let buf := (List.range cs.sector_bytes).map (fun i => store.byteAt (pos + i))
      let u9 := hawk_write_bits u8 ((cs.sector_bytes * 8 : Nat) : Int) buf
      -- CRC placeholder
      let u10 := hawk_write_bits u9 16 [204, 204]
      -- trailer
      let u11 := hawk_set_bits u10 (cs.gap_bits / 2) 0
      let rest := hawk_buffer_sectors cs store cyl head u11 (pos + cs.sector_bytes)
        (sector + 1) rem
      { rest with reads := pos :: rest.reads, dataBufs := buf :: rest.dataBufs }
    else
      ⟨false, u8, [], []⟩

/-- hawk_buffer_track (hawk.c lines 50-104): position the backing store
at the track base offset and encode every sector of the track into the
bit buffer, reporting failure on a positioning error or any short
read. -/
def hawk_buffer_track (cs : HawkConsts) (store : BackingStore) (u : HawkUnit)
    (cyl head : Nat) : BTResult :=
  let offset := ((cyl <<< 5) ||| (head <<< 4)) * cs.sector_bytes
  if store.seekFail then ⟨false, u, [], []⟩
  else hawk_buffer_sectors cs store cyl head u offset 0 cs.sects_per_trk

/-- hawk_seek_callback (hawk.c lines 28-46): on firing, latch the pending
error flag if it was set, then report seek completion by raising on_cyl
and dropping seeking.  The controller notification is an external
collaborator and is not modelled. -/
def hawk_seek_callback (ev : SeekEvent) (u : HawkUnit) : HawkUnit :=
  let u1 := if ev.seek_error ≠ 0 then { u with seek_error := ev.seek_error } else u
  { u1 with on_cyl := 1, seeking := 0 }

/-- Result of hawk_seek: the unit after the call, the seek event handed
to schedule_event if any, and the outcome of the track materialization if
it was attempted (none when the call returned without touching the
backing store). -/
structure SeekResult where
  unit : HawkUnit
  scheduled : Option SeekEvent
  buffer_result : Option Bool

/-- hawk_seek (hawk.c lines 107-154).  A unit already seeking returns at
once with nothing changed.  Otherwise the mechanical flags are set, the
track index is latched, an out-of-range cylinder raises the address
interlock fault and returns without scheduling, and an in-range seek
materializes the destination track and schedules completion after the
7.5 ms nominal delay, or after the 500 ms fault delay with a pending
error when materialization fails.  Lines 124-125 of the source compute
an offset that is never used (the operator-precedence anomaly the spec
flags); having no effect, it has no counterpart here. -/
def hawk_seek (cs : HawkConsts) (store : BackingStore) (u : HawkUnit)
    (cyl head : Nat) : SeekResult :=
  if u.seeking ≠ 0 then ⟨u, none, none⟩
  else
    let u1 := { u with
      seeking := 1
      addr_ack := 0
      addr_int := 0
      current_track := (cyl <<< 1) ||| head
      on_cyl := 0 }
    if cyl ≥ cs.num_cylinders then ⟨{ u1 with addr_int := 1 }, none, none⟩
    else
      let bt := hawk_buffer_track cs store u1 cyl head
      let ev : SeekEvent :=
        if bt.ok then { delta_ns := 15 * ONE_MILISECOND_NS / 2, seek_error := 0 }
        else { delta_ns := 500 * ONE_MILISECOND_NS, seek_error := 1 }
      ⟨{ bt.unit with addr_ack := 1 }, some ev, some bt.ok⟩

/-- hawk_rtz (hawk.c lines 157-166): unconditionally clear seek_error,
fault and seeking, then issue a seek to cylinder 0, head 0. -/
def hawk_rtz (cs : HawkConsts) (store : BackingStore) (u : HawkUnit) : SeekResult :=
  hawk_seek cs store { u with seek_error := 0, fault := 0, seeking := 0 } 0 0

/-- hawk_update (hawk.c lines 168-173): the rotation query.  The sum of
the 64-bit clock and the per-unit phase offset is a uint64, so it is
reduced modulo 2 ^ 64 before the reduction modulo the rotation period. -/
def hawk_update (cs : HawkConsts) (u : HawkUnit) (now : Nat) : HawkUnit :=
  let rotation : Nat := ((now + u.rotation_offset) % 2 ^ 64) % cs.rotation_ns
  { u with head_pos := rotation * cs.bit_ns, sector_addr := rotation / cs.sector_ns }

/-- hawk_remaining_bits (hawk.c lines 175-178): recompute the rotation
and return the signed distance from the cursor to the head. -/
def hawk_remaining_bits (cs : HawkConsts) (u : HawkUnit) (time : Nat) : Int :=
  let v := hawk_update cs u time
  (v.head_pos : Int) - v.data_ptr

/-- hawk_rotation_event_cb (hawk.c lines 180-194): on firing, recompute
the rotation at the fire time and snap the cursor to the head
position. -/
def hawk_rotation_event_cb (cs : HawkConsts) (u : HawkUnit) (fire_time : Nat) : HawkUnit :=
  let v := hawk_update cs u fire_time
  { v with data_ptr := (v.head_pos : Int) }

/-- hawk_wait_sector (hawk.c lines 196-214): compute the delay until the
drive rotates to the target sector (the signed difference of the target
phase and the current phase, plus one period if negative) and arm the
rotation event with it.  Both phases are below the rotation period, far
below 2 ^ 63, so the uint64 difference reinterpreted as int64 by the
source is the mathematical difference. -/
def hawk_wait_sector (cs : HawkConsts) (u : HawkUnit) (now : Nat)
    (sector : Nat) : RotationEvent :=
  let rotation : Nat := ((now + u.rotation_offset) % 2 ^ 64) % cs.rotation_ns
  let desired_rotation := cs.sector_ns * sector
  let delta0 : Int := (desired_rotation : Int) - (rotation : Int)
  let delta := if delta0 < 0 then delta0 + (cs.rotation_ns : Int) else delta0
  { delta_ns := delta, in_process := 1 }

/-- Modelled from the spec: a concrete constants instance for witnesses.
The source comments fix 400-byte sectors, a 120-bit gap and an 88-bit
sync field; the remaining values are representative (the spec gives no
numbers): 16 sectors per track, a 25 ms rotation with a 16th of it per
sector, and an arbitrary bit density. -/
def specConsts : HawkConsts :=
  { num_cylinders := 406
    sector_bytes := 400
    sects_per_trk := 16
    gap_bits := 120
    sync_bits := 88
    raw_sector_bits := 3724
    raw_track_bits := 59584
    rotation_ns := 25000000
    sector_ns := 1562500
    bit_ns := 1 }

/-- A freshly attached unit: all mechanical flags clear, cursor at zero,
track buffer all zeros, no phase skew. -/
def idleUnit : HawkUnit :=
  { unit_num := 0
    seek_error := 0
    on_cyl := 0
    seeking := 0
    addr_ack := 0
    addr_int := 0
    current_track := 0
    fault := 0
    data_ptr := 0
    current_track_data := fun _ => 0
    head_pos := 0
    sector_addr := 0
    rotation_offset := 0 }

/-! Helper lemmas about the bit-store primitives. -/

lemma track_write_data_ptr (u : HawkUnit) (b : Nat) :
    (track_write u b).data_ptr = u.data_ptr + 1 := rfl

lemma hawk_set_bits_data_ptr (count : Nat) : ∀ (u : HawkUnit) (val : Nat),
    (hawk_set_bits u count val).data_ptr = u.data_ptr + count := by
  induction count with
  | zero => intro u val; simp [hawk_set_bits]
  | succ n ih =>
    intro u val
    rw [hawk_set_bits, ih]
    simp [track_write]
    omega

lemma hawk_set_bits_track (count : Nat) : ∀ (u : HawkUnit) (val : Nat) (i : Int),
    (hawk_set_bits u count val).current_track_data i =
      if u.data_ptr ≤ i ∧ i < u.data_ptr + count then val % 2
      else u.current_track_data i := by
  induction count with
  | zero =>
    intro u val i
    rw [hawk_set_bits]
    split_ifs with h
    · exfalso; push_cast at h; omega
    · rfl
  | succ n ih =>
    intro u val i
    rw [hawk_set_bits, ih]
    simp only [track_write]
    push_cast
    split_ifs <;> first | rfl | omega

lemma hawk_write_bits_of_ne (u : HawkUnit) (count : Int) (data : List Nat)
    (h : count ≠ 0) : hawk_write_bits u count data = u := by
  simp [hawk_write_bits, h]

lemma hawk_read_bits_of_ne (u : HawkUnit) (count : Int) (h : count - 1 ≠ 0) :
    hawk_read_bits u count =
      ({ u with data_ptr := u.data_ptr + 1 },
       [(u.current_track_data u.data_ptr <<< 7) % 256]) := by
  simp [hawk_read_bits, h]

/-! Bitwise arithmetic: an or with disjoint low bits is an addition. -/

lemma two_pow_mul_lor_eq_add {k b : Nat} (a : Nat) (hb : b < 2 ^ k) :
    ((2 ^ k * a) ||| b) = 2 ^ k * a + b := by
  apply Nat.eq_of_testBit_eq
  intro j
  rw [Nat.testBit_lor, Nat.testBit_mul_pow_two_add a hb j]
  have h0 : (0 : Nat) < 2 ^ k := pow_pos (by norm_num) k
  have hsplit := Nat.testBit_mul_pow_two_add a h0 j
  simp only [Nat.add_zero, Nat.zero_testBit] at hsplit
  rcases lt_or_le j k with hj | hj
  · simp [hsplit, hj]
  · have h2 : b.testBit j = false :=
      Nat.testBit_eq_false_of_lt
        (lt_of_lt_of_le hb (Nat.pow_le_pow_right (by norm_num) hj))
    simp [hsplit, h2, Nat.not_lt.2 hj]

lemma track_base_or_eq (c h : Nat) (hh : h < 2) :
    ((c <<< 5) ||| (h <<< 4)) = 32 * c + 16 * h := by
  have e5 : c <<< 5 = 2 ^ 5 * c := by rw [Nat.shiftLeft_eq]; ring
  have e4 : h <<< 4 = 2 ^ 4 * h := by rw [Nat.shiftLeft_eq]; ring
  rw [e5, e4, two_pow_mul_lor_eq_add c (by norm_num; omega)]
  ring

lemma track_base_lor_sector (c h s : Nat) (hh : h < 2) (hs : s < 16) :
    (((c <<< 5) ||| (h <<< 4)) ||| s) = ((c <<< 5) ||| (h <<< 4)) + s := by
  rw [track_base_or_eq c h hh]
  have e : 32 * c + 16 * h = 2 ^ 4 * (2 * c + h) := by ring
  rw [e, two_pow_mul_lor_eq_add (2 * c + h) (by norm_num; omega)]

/-! Shape lemmas: the codec primitives and the track materialization only
touch the cursor and the track buffer of the unit; every other field is
carried over unchanged.  shapeOf u v says v is u with at most the cursor
and the track buffer changed. -/

abbrev shapeOf (u v : HawkUnit) : Prop :=
  ∃ p t, v = { u with data_ptr := p, current_track_data := t }

lemma shapeOf_refl (u : HawkUnit) : shapeOf u u :=
  ⟨u.data_ptr, u.current_track_data, rfl⟩

lemma shapeOf_trans {u v w : HawkUnit} (h1 : shapeOf u v) (h2 : shapeOf v w) :
    shapeOf u w := by
  obtain ⟨p, t, rfl⟩ := h1
  obtain ⟨q, s, rfl⟩ := h2
  exact ⟨q, s, rfl⟩

lemma shapeOf_ptr {u v : HawkUnit} (h : shapeOf u v) (p : Int) :
    shapeOf u { v with data_ptr := p } := by
  obtain ⟨q, t, rfl⟩ := h
  exact ⟨p, t, rfl⟩

lemma shapeOf_track_write {u v : HawkUnit} (h : shapeOf u v) (b : Nat) :
    shapeOf u (track_write v b) := by
  obtain ⟨q, t, rfl⟩ := h
  exact ⟨_, _, rfl⟩

lemma shapeOf_set_bits {u v : HawkUnit} (h : shapeOf u v) (count val : Nat) :
    shapeOf u (hawk_set_bits v count val) := by
  induction count generalizing v with
  | zero => exact h
  | succ n ih =>
    rw [hawk_set_bits]
    exact ih (shapeOf_track_write h (val % 2))

lemma shapeOf_write_bits {u v : HawkUnit} (h : shapeOf u v) (count : Int)
    (data : List Nat) : shapeOf u (hawk_write_bits v count data) := by
  unfold hawk_write_bits
  split
  · exact h
  · exact shapeOf_track_write h _

lemma shapeOf_sector_header {u v : HawkUnit} (h : shapeOf u v)
    (cs : HawkConsts) (cyl head sector : Nat) :
    shapeOf u (hawk_sector_header cs cyl head sector v) := by
  unfold hawk_sector_header
  exact shapeOf_set_bits (shapeOf_set_bits (shapeOf_set_bits (shapeOf_write_bits
    (shapeOf_set_bits (shapeOf_set_bits (shapeOf_set_bits
      (shapeOf_ptr h _) _ _) _ _) _ _) _ _) _ _) _ _) _ _

lemma shapeOf_buffer_sectors (cs : HawkConsts) (store : BackingStore) (c h : Nat) :
    ∀ (rem : Nat) (u : HawkUnit) (pos sector : Nat),
      shapeOf u (hawk_buffer_sectors cs store c h u pos sector rem).unit := by
  intro rem
  induction rem with
  | zero => intro u pos sector; exact shapeOf_refl u
  | succ n ih =>
    intro u pos sector
    rw [hawk_buffer_sectors]
    split
    · exact shapeOf_trans
        (shapeOf_set_bits (shapeOf_write_bits (shapeOf_write_bits
          (shapeOf_sector_header (shapeOf_refl u) cs c h sector) _ _) _ _) _ _)
        (ih _ _ _)
    · exact shapeOf_sector_header (shapeOf_refl u) cs c h sector

lemma shapeOf_buffer_track (cs : HawkConsts) (store : BackingStore) (u : HawkUnit)
    (c h : Nat) : shapeOf u (hawk_buffer_track cs store u c h).unit := by
  unfold hawk_buffer_track
  split
  · exact shapeOf_refl u
  · exact shapeOf_buffer_sectors cs store c h cs.sects_per_trk u _ 0

/-! Cursor monotonicity and low-cell preservation: every store primitive
writes at or above the current cursor, so cells below a lower bound on
the cursor are never touched. -/

lemma hawk_set_bits_low_frame (u : HawkUnit) (count val : Nat) (n : Int)
    (hn : n ≤ u.data_ptr) :
    n ≤ (hawk_set_bits u count val).data_ptr ∧
    ∀ i : Int, i < n →
      (hawk_set_bits u count val).current_track_data i = u.current_track_data i := by
  constructor
  · rw [hawk_set_bits_data_ptr]; omega
  · intro i hi
    rw [hawk_set_bits_track]
    split_ifs with hc
    · omega
    · rfl

lemma hawk_write_bits_low_frame (u : HawkUnit) (count : Int) (data : List Nat)
    (n : Int) (hn : n ≤ u.data_ptr) :
    n ≤ (hawk_write_bits u count data).data_ptr ∧
    ∀ i : Int, i < n →
      (hawk_write_bits u count data).current_track_data i = u.current_track_data i := by
  unfold hawk_write_bits
  split
  · exact ⟨hn, fun i _ => rfl⟩
  · refine ⟨by simp [track_write]; omega, fun i hi => ?_⟩
    simp only [track_write]
    split_ifs with hc
    · omega
    · rfl

lemma hawk_sector_header_low_frame (cs : HawkConsts) (cyl head sector : Nat)
    (u : HawkUnit) (n : Int) (hn : n ≤ ((sector * cs.raw_sector_bits : Nat) : Int)) :
    n ≤ (hawk_sector_header cs cyl head sector u).data_ptr ∧
    ∀ i : Int, i < n →
      (hawk_sector_header cs cyl head sector u).current_track_data i =
        u.current_track_data i := by
  unfold hawk_sector_header
  obtain ⟨g2, e2⟩ := hawk_set_bits_low_frame
    { u with data_ptr := ((sector * cs.raw_sector_bits : Nat) : Int) } cs.gap_bits 0 n hn
  obtain ⟨g3, e3⟩ := hawk_set_bits_low_frame _ (cs.sync_bits - 1) 0 n g2
  obtain ⟨g4, e4⟩ := hawk_set_bits_low_frame _ 1 1 n g3
  obtain ⟨g5, e5⟩ := hawk_write_bits_low_frame _ 32 _ n g4
  obtain ⟨g6, e6⟩ := hawk_set_bits_low_frame _ cs.gap_bits 0 n g5
  obtain ⟨g7, e7⟩ := hawk_set_bits_low_frame _ (cs.sync_bits - 1) 0 n g6
  obtain ⟨g8, e8⟩ := hawk_set_bits_low_frame _ 1 1 n g7
  refine ⟨g8, fun i hi => ?_⟩
  rw [e8 i hi, e7 i hi, e6 i hi, e5 i hi, e4 i hi, e3 i hi, e2 i hi]

lemma hawk_buffer_sectors_low (cs : HawkConsts) (store : BackingStore) (c h : Nat) :
    ∀ (rem : Nat) (u : HawkUnit) (pos sector : Nat) (i : Int),
      i < ((sector * cs.raw_sector_bits : Nat) : Int) →
      (hawk_buffer_sectors cs store c h u pos sector rem).unit.current_track_data i =
        u.current_track_data i := by
  intro rem
  induction rem with
  | zero => intro u pos sector i _; rfl
  | succ n ih =>
    intro u pos sector i hi
    rw [hawk_buffer_sectors]
    obtain ⟨g8, e8⟩ := hawk_sector_header_low_frame cs c h sector u
      ((sector * cs.raw_sector_bits : Nat) : Int) le_rfl
    split
    · obtain ⟨g9, e9⟩ := hawk_write_bits_low_frame _
        ((cs.sector_bytes * 8 : Nat) : Int) _ _ g8
      obtain ⟨ga, ea⟩ := hawk_write_bits_low_frame _ 16 [204, 204] _ g9
      obtain ⟨gb, eb⟩ := hawk_set_bits_low_frame _ (cs.gap_bits / 2) 0 _ ga
      have hmono : ((sector * cs.raw_sector_bits : Nat) : Int) ≤
          (((sector + 1) * cs.raw_sector_bits : Nat) : Int) := by
        exact_mod_cast Nat.mul_le_mul (Nat.le_succ sector) (le_refl cs.raw_sector_bits)
      have hstep : i < (((sector + 1) * cs.raw_sector_bits : Nat) : Int) :=
        lt_of_lt_of_le hi hmono
      rw [ih _ _ (sector + 1) i hstep, eb i hi, ea i hi, e9 i hi, e8 i hi]
    · exact e8 i hi

/-! Characterization of the sector header emission. -/

lemma hawk_sector_header_data_ptr (cs : HawkConsts) (cyl head sector : Nat)
    (u : HawkUnit) :
    (hawk_sector_header cs cyl head sector u).data_ptr =
      ((sector * cs.raw_sector_bits : Nat) : Int) + (cs.gap_bits : Int)
        + ((cs.sync_bits - 1 : Nat) : Int) + 1 + (cs.gap_bits : Int)
        + ((cs.sync_bits - 1 : Nat) : Int) + 1 := by
  simp only [hawk_sector_header]
  rw [hawk_write_bits_of_ne _ 32 _ (by norm_num)]
  simp only [hawk_set_bits_data_ptr]
  push_cast
  ring

lemma hawk_sector_header_first_gap (cs : HawkConsts) (cyl head sector : Nat)
    (u : HawkUnit) (i : Int)
    (h1 : ((sector * cs.raw_sector_bits : Nat) : Int) ≤ i)
    (h2 : i < ((sector * cs.raw_sector_bits : Nat) : Int) + (cs.gap_bits : Int)) :
    (hawk_sector_header cs cyl head sector u).current_track_data i = 0 := by
  simp only [hawk_sector_header]
  rw [hawk_write_bits_of_ne _ 32 _ (by norm_num)]
  simp only [hawk_set_bits_track, hawk_set_bits_data_ptr]
  split_ifs <;> omega

lemma hawk_sector_header_second_gap (cs : HawkConsts) (cyl head sector : Nat)
    (u : HawkUnit) (i : Int)
    (h1 : ((sector * cs.raw_sector_bits : Nat) : Int) + (cs.gap_bits : Int)
        + ((cs.sync_bits - 1 : Nat) : Int) + 1 ≤ i)
    (h2 : i < ((sector * cs.raw_sector_bits : Nat) : Int) + (cs.gap_bits : Int)
        + ((cs.sync_bits - 1 : Nat) : Int) + 1 + (cs.gap_bits : Int)) :
    (hawk_sector_header cs cyl head sector u).current_track_data i = 0 := by
  simp only [hawk_sector_header]
  rw [hawk_write_bits_of_ne _ 32 _ (by norm_num)]
  simp only [hawk_set_bits_track, hawk_set_bits_data_ptr]
  split_ifs <;> omega

/-! The read trace and the data-field trace of a successful sector loop. -/

lemma hawk_buffer_sectors_ok_of (cs : HawkConsts) (store : BackingStore) (c h : Nat) :
    ∀ (rem : Nat) (u : HawkUnit) (pos sector : Nat),
      pos + rem * cs.sector_bytes ≤ store.size →
      (hawk_buffer_sectors cs store c h u pos sector rem).ok = true := by
  intro rem
  induction rem with
  | zero => intro u pos sector _; rfl
  | succ n ih =>
    intro u pos sector hsz
    have hmul : (n + 1) * cs.sector_bytes = n * cs.sector_bytes + cs.sector_bytes := by
      ring
    have hc : pos + cs.sector_bytes ≤ store.size := by omega
    rw [hawk_buffer_sectors]
    rw [if_pos hc]
    exact ih _ (pos + cs.sector_bytes) (sector + 1) (by omega)

lemma hawk_buffer_sectors_trace (cs : HawkConsts) (store : BackingStore) (c h : Nat) :
    ∀ (rem : Nat) (u : HawkUnit) (pos sector : Nat),
      (hawk_buffer_sectors cs store c h u pos sector rem).ok = true →
      (hawk_buffer_sectors cs store c h u pos sector rem).reads =
        (List.range rem).map (fun j => pos + j * cs.sector_bytes) ∧
      (hawk_buffer_sectors cs store c h u pos sector rem).dataBufs =
        (List.range rem).map (fun j =>
          (List.range cs.sector_bytes).map (fun i =>
            store.byteAt (pos + j * cs.sector_bytes + i))) := by
  intro rem
  induction rem with
  | zero => intro u pos sector _; simp [hawk_buffer_sectors]
  | succ n ih =>
    intro u pos sector hok
    rw [hawk_buffer_sectors] at hok ⊢
    by_cases hc : pos + cs.sector_bytes ≤ store.size
    · rw [if_pos hc] at hok ⊢
      have hro : (hawk_buffer_sectors cs store c h
          (hawk_set_bits
            (hawk_write_bits
              (hawk_write_bits (hawk_sector_header cs c h sector u)
                ((cs.sector_bytes * 8 : Nat) : Int)
                ((List.range cs.sector_bytes).map (fun i => store.byteAt (pos + i))))
              16 [204, 204])
            (cs.gap_bits / 2) 0)
          (pos + cs.sector_bytes) (sector + 1) n).ok = true := hok
      obtain ⟨hr, hd⟩ := ih _ (pos + cs.sector_bytes) (sector + 1) hro
      constructor
      · show pos :: _ = _
        rw [hr, List.range_succ_eq_map, List.map_cons, List.map_map]
        congr 1
        · simp
        · apply List.map_congr_left
          intro j _
          simp only [Function.comp_apply]
          rw [Nat.succ_mul]
          omega
      · show ((List.range cs.sector_bytes).map (fun i => store.byteAt (pos + i))) :: _ = _
        rw [hd, List.range_succ_eq_map, List.map_cons, List.map_map]
        congr 1
        · simp
        · apply List.map_congr_left
          intro j _
          simp only [Function.comp_apply]
          apply List.map_congr_left
          intro i _
          congr 1
          rw [Nat.succ_mul]
          omega
    · rw [if_neg hc] at hok
      simp at hok

lemma hawk_buffer_track_ok_of (cs : HawkConsts) (store : BackingStore) (u : HawkUnit)
    (c h : Nat) (hsf : store.seekFail = false)
    (hsz : ((c <<< 5) ||| (h <<< 4)) * cs.sector_bytes
      + cs.sects_per_trk * cs.sector_bytes ≤ store.size) :
    (hawk_buffer_track cs store u c h).ok = true := by
  unfold hawk_buffer_track
  rw [if_neg (by simp [hsf])]
  exact hawk_buffer_sectors_ok_of cs store c h cs.sects_per_trk u _ 0 hsz

/-! Concrete instances used by witnesses and counterexamples. -/

/-- A store whose positioning call fails. -/
def seekFailStore : BackingStore := ⟨0, fun _ => 0, true⟩

/-- A zero-byte store: positioning succeeds, every read is short. -/
def emptyStore : BackingStore := ⟨0, fun _ => 0, false⟩

/-- A healthy store large enough for one full track at cylinder 0. -/
def flatStore : BackingStore := ⟨6400, fun _ => 7, false⟩

/-- A unit whose track buffer is all ones (to make overwrites visible). -/
def onesUnit : HawkUnit := { idleUnit with current_track_data := fun _ => 1 }

/-- A unit with a seek already in flight. -/
def seekingUnit : HawkUnit := { idleUnit with seeking := 1 }

/-- A unit with latched error and fault flags and a stuck seeking flag. -/
def faultyUnit : HawkUnit := { idleUnit with seek_error := 1, fault := 1, seeking := 1 }

/-- Claim C1: when the scheduled seek-completion callback fires, error or
not, the unit ends with on_cyl = 1 and seeking = 0, and the callback
latches seek_error exactly when the pending error flag of the event was
set (otherwise the field is left untouched). -/
theorem hawk_seek_callback_completes (ev : SeekEvent) (u : HawkUnit) :
    (hawk_seek_callback ev u).on_cyl = 1 ∧
    (hawk_seek_callback ev u).seeking = 0 ∧
    (hawk_seek_callback ev u).seek_error =
      (if ev.seek_error ≠ 0 then ev.seek_error else u.seek_error) := by
  simp only [hawk_seek_callback]
  split_ifs <;> simp

/-- Claim C3: an in-range seek whose track materialization fails schedules
the seek event with the 500 ms fault delay (rather than the 7.5 ms nominal
delay) and a pending error, and after the event fires the unit has
seek_error latched and on_cyl = 1 (and seeking dropped). -/
theorem hawk_seek_io_error_spec (cs : HawkConsts) (store : BackingStore)
    (u : HawkUnit) (cyl head : Nat) (h0 : u.seeking = 0)
    (h1 : cyl < cs.num_cylinders)
    (hfail : (hawk_seek cs store u cyl head).buffer_result = some false) :
    ∃ ev, (hawk_seek cs store u cyl head).scheduled = some ev ∧
      ev.delta_ns = 500 * ONE_MILISECOND_NS ∧
      ev.seek_error = 1 ∧
      (hawk_seek_callback ev (hawk_seek cs store u cyl head).unit).seek_error = 1 ∧
      (hawk_seek_callback ev (hawk_seek cs store u cyl head).unit).on_cyl = 1 ∧
      (hawk_seek_callback ev (hawk_seek cs store u cyl head).unit).seeking = 0 := by
  simp only [hawk_seek] at hfail ⊢
  rw [if_neg (by simp [h0])] at hfail ⊢
  rw [if_neg (not_le.mpr h1)] at hfail ⊢
  have hbt : (hawk_buffer_track cs store
      { u with
        seeking := 1
        addr_ack := 0
        addr_int := 0
        current_track := (cyl <<< 1) ||| head
        on_cyl := 0 } cyl head).ok = false := by
    simpa using hfail
  rw [hbt]
  refine ⟨_, rfl, ?_, ?_, ?_, ?_, ?_⟩ <;> simp [hawk_seek_callback]

/-- Claim C4: a seek to a cylinder at or past the cylinder count, on a
unit not already seeking, raises the address interlock fault and returns
with no event scheduled and the backing store untouched, leaving the
seeking flag set. -/
theorem hawk_seek_out_of_range_spec (cs : HawkConsts) (store : BackingStore)
    (u : HawkUnit) (cyl head : Nat) (h0 : u.seeking = 0)
    (h1 : cs.num_cylinders ≤ cyl) :
    (hawk_seek cs store u cyl head).unit.addr_int = 1 ∧
    (hawk_seek cs store u cyl head).scheduled = none ∧
    (hawk_seek cs store u cyl head).buffer_result = none ∧
    (hawk_seek cs store u cyl head).unit.seeking = 1 := by
  simp only [hawk_seek]
  rw [if_neg (by simp [h0]), if_pos h1]
  exact ⟨rfl, rfl, rfl, rfl⟩

/-- Claim C5: Return-To-Zero clears seek_error, fault and seeking and then
issues a seek to cylinder 0, head 0, so after it returns the unit has
seek_error = 0, fault = 0, current_track = 0, a seek in flight
(seeking = 1) and a completion event scheduled. -/
theorem hawk_rtz_spec (cs : HawkConsts) (store : BackingStore) (u : HawkUnit)
    (hcyl : 0 < cs.num_cylinders) :
    (hawk_rtz cs store u).unit.seek_error = 0 ∧
    (hawk_rtz cs store u).unit.fault = 0 ∧
    (hawk_rtz cs store u).unit.current_track = 0 ∧
    (hawk_rtz cs store u).unit.seeking = 1 ∧
    ∃ ev, (hawk_rtz cs store u).scheduled = some ev := by
  unfold hawk_rtz
  simp only [hawk_seek]
  rw [if_neg (by simp), if_neg (not_le.mpr hcyl)]
  obtain ⟨p, t, he⟩ := shapeOf_buffer_track cs store
    { u with
      seek_error := 0
      fault := 0
      seeking := 1
      addr_ack := 0
      addr_int := 0
      current_track := (0 <<< 1) ||| 0
      on_cyl := 0 } 0 0
  rw [he]
  refine ⟨rfl, rfl, by simp, rfl, ⟨_, rfl⟩⟩

/-- Claim C10: on a unit whose seeking flag is set, a seek request is a
silent no-op (the unit, the scheduler and the backing store are all
untouched); consequently after an address-interlock fault, which leaves
seeking set, every further seek request is ignored, while Return-To-Zero
clears the flag and schedules a fresh seek. -/
theorem hawk_seek_seeking_noop_spec (cs : HawkConsts) (store store2 : BackingStore)
    (u : HawkUnit) (cyl head cyl2 head2 : Nat) :
    (u.seeking ≠ 0 → hawk_seek cs store u cyl head = ⟨u, none, none⟩) ∧
    (u.seeking = 0 → cs.num_cylinders ≤ cyl →
      hawk_seek cs store2 (hawk_seek cs store u cyl head).unit cyl2 head2 =
        ⟨(hawk_seek cs store u cyl head).unit, none, none⟩) ∧
    (u.seeking = 0 → cs.num_cylinders ≤ cyl → 0 < cs.num_cylinders →
      (hawk_rtz cs store2 (hawk_seek cs store u cyl head).unit).scheduled ≠ none) := by
  refine ⟨?_, ?_, ?_⟩
  · intro h
    simp only [hawk_seek]
    rw [if_pos h]
  · intro h0 h1
    have hr : hawk_seek cs store u cyl head =
        ⟨{ u with
            seeking := 1
            addr_ack := 0
            addr_int := 1
            current_track := (cyl <<< 1) ||| head
            on_cyl := 0 }, none, none⟩ := by
      simp only [hawk_seek]
      rw [if_neg (by simp [h0]), if_pos h1]
    rw [hr]
    simp only [hawk_seek]
    rw [if_pos (by simp)]
  · intro h0 h1 hn
    have hr : hawk_seek cs store u cyl head =
        ⟨{ u with
            seeking := 1
            addr_ack := 0
            addr_int := 1
            current_track := (cyl <<< 1) ||| head
            on_cyl := 0 }, none, none⟩ := by
      simp only [hawk_seek]
      rw [if_neg (by simp [h0]), if_pos h1]
    rw [hr]
    unfold hawk_rtz
    simp only [hawk_seek]
    rw [if_neg (by simp), if_neg (not_le.mpr hn)]
    simp

/-- Claim C6: the rotation query is the pure function
rotation = (T + rotation_phase_offset) mod ROTATION_PERIOD_NS,
head_position_bits = rotation * BITS_PER_NS and
current_sector_index = rotation / SECTOR_PERIOD_NS, and it is periodic
with period ROTATION_PERIOD_NS.  The hypothesis keeps the 64-bit clock
sum below its wraparound point, which a monotonic nanosecond clock never
reaches. -/
theorem hawk_update_periodic (cs : HawkConsts) (u : HawkUnit) (now : Nat)
    (hov : now + u.rotation_offset + cs.rotation_ns < 2 ^ 64) :
    (hawk_update cs u now).head_pos =
      ((now + u.rotation_offset) % cs.rotation_ns) * cs.bit_ns ∧
    (hawk_update cs u now).sector_addr =
      ((now + u.rotation_offset) % cs.rotation_ns) / cs.sector_ns ∧
    (hawk_update cs u (now + cs.rotation_ns)).head_pos =
      (hawk_update cs u now).head_pos ∧
    (hawk_update cs u (now + cs.rotation_ns)).sector_addr =
      (hawk_update cs u now).sector_addr := by
  simp only [hawk_update]
  have e1 : (now + u.rotation_offset) % 2 ^ 64 = now + u.rotation_offset :=
    Nat.mod_eq_of_lt (by omega)
  have e2 : (now + cs.rotation_ns + u.rotation_offset) % 2 ^ 64 =
      now + cs.rotation_ns + u.rotation_offset :=
    Nat.mod_eq_of_lt (by omega)
  rw [e1, e2]
  have e3 : (now + cs.rotation_ns + u.rotation_offset) % cs.rotation_ns =
      (now + u.rotation_offset) % cs.rotation_ns := by
    rw [show now + cs.rotation_ns + u.rotation_offset =
      now + u.rotation_offset + cs.rotation_ns by ring, Nat.add_mod_right]
  rw [e3]
  exact ⟨rfl, rfl, rfl, rfl⟩

/-- Claim C7 counterexample: with the head strictly inside the target
sector (rotation phase 1, so the current sector index is the target, 0),
the computed delay is not 0 but one full period minus one nanosecond.
This refutes the reading that the delay is 0 whenever the head is
already over the target sector. -/
theorem hawk_wait_sector_over_sector_counterexample :
    (hawk_update specConsts idleUnit 1).sector_addr = 0 ∧
    (hawk_wait_sector specConsts idleUnit 1 0).delta_ns = 24999999 ∧
    (hawk_wait_sector specConsts idleUnit 1 0).delta_ns ≠ 0 := by
  refine ⟨by decide, by decide, by decide⟩

/-- Claim C7 (amended): for a target sector below the sector count, the
scheduled delay is the difference of the target phase and the current
phase wrapped into [0, ROTATION_PERIOD_NS) by adding one period if
negative; it is 0 exactly when the current rotation phase equals the
start phase of the target sector (not merely when the head is somewhere
inside that sector); and when the rotation event fires, the rotation is
recomputed at the fire time and the bit cursor snaps to the head
position. -/
theorem hawk_wait_sector_delay_spec (cs : HawkConsts) (u : HawkUnit)
    (now sector : Nat) (hs : sector < cs.sects_per_trk)
    (hR : cs.rotation_ns = cs.sects_per_trk * cs.sector_ns)
    (hsns : 0 < cs.sector_ns)
    (hov : now + u.rotation_offset < 2 ^ 64) :
    0 ≤ (hawk_wait_sector cs u now sector).delta_ns ∧
    (hawk_wait_sector cs u now sector).delta_ns < (cs.rotation_ns : Int) ∧
    (hawk_wait_sector cs u now sector).delta_ns =
      (if ((now + u.rotation_offset) % cs.rotation_ns) ≤ cs.sector_ns * sector then
        ((cs.sector_ns * sector : Nat) : Int)
          - (((now + u.rotation_offset) % cs.rotation_ns : Nat) : Int)
      else ((cs.sector_ns * sector : Nat) : Int) + (cs.rotation_ns : Int)
          - (((now + u.rotation_offset) % cs.rotation_ns : Nat) : Int)) ∧
    ((hawk_wait_sector cs u now sector).delta_ns = 0 ↔
      (now + u.rotation_offset) % cs.rotation_ns = cs.sector_ns * sector) ∧
    (∀ t : Nat, (hawk_rotation_event_cb cs u t).data_ptr =
      (((hawk_update cs u t).head_pos : Nat) : Int)) := by
  have hRpos : 0 < cs.rotation_ns := by
    rw [hR]; exact Nat.mul_pos (by omega) hsns
  have hrlt : (now + u.rotation_offset) % cs.rotation_ns < cs.rotation_ns :=
    Nat.mod_lt _ hRpos
  have hmul : (sector + 1) * cs.sector_ns ≤ cs.sects_per_trk * cs.sector_ns :=
    Nat.mul_le_mul (by omega) (le_refl cs.sector_ns)
  have hmul2 : (sector + 1) * cs.sector_ns = sector * cs.sector_ns + cs.sector_ns := by
    ring
  have hdlt : cs.sector_ns * sector + cs.sector_ns ≤ cs.rotation_ns := by
    rw [hR]
    have e : cs.sector_ns * sector = sector * cs.sector_ns := by ring
    omega
  have hcomm : cs.sector_ns * sector = sector * cs.sector_ns := by ring
  simp only [hawk_wait_sector]
  rw [Nat.mod_eq_of_lt hov]
  refine ⟨?_, ?_, ?_, ?_, fun t => rfl⟩ <;>
    · split_ifs <;> omega

lemma BTResult_update_unit (r : BTResult) (a : List Nat) (b : List (List Nat)) :
    ({ r with reads := a, dataBufs := b }).unit = r.unit := rfl

lemma hawk_buffer_sectors_first_iteration (cs : HawkConsts) (store : BackingStore)
    (c h : Nat) (m : Nat) (u : HawkUnit) (pos sector : Nat) (i : Int)
    (hlow : i < (hawk_sector_header cs c h sector u).data_ptr)
    (hnext : i < (((sector + 1) * cs.raw_sector_bits : Nat) : Int)) :
    (hawk_buffer_sectors cs store c h u pos sector (m + 1)).unit.current_track_data i =
      (hawk_sector_header cs c h sector u).current_track_data i := by
  simp only [hawk_buffer_sectors]
  split
  · obtain ⟨g9, e9⟩ := hawk_write_bits_low_frame (hawk_sector_header cs c h sector u)
      ((cs.sector_bytes * 8 : Nat) : Int)
      ((List.range cs.sector_bytes).map (fun j => store.byteAt (pos + j)))
      ((hawk_sector_header cs c h sector u).data_ptr) le_rfl
    obtain ⟨ga, ea⟩ := hawk_write_bits_low_frame _ 16 [204, 204] _ g9
    obtain ⟨gb, eb⟩ := hawk_set_bits_low_frame _ (cs.gap_bits / 2) 0 _ ga
    rw [BTResult_update_unit]
    rw [hawk_buffer_sectors_low cs store c h m _ (pos + cs.sector_bytes) (sector + 1) i hnext]
    rw [eb i hlow, ea i hlow, e9 i hlow]
  · rfl

/-- Claim C8 counterexample: materializing track (0,0) from a zero-byte
store fails (the first read is short), yet the track buffer is already
partially overwritten: on a unit whose buffer held all ones, cell 0 now
holds the first gap zero.  This refutes the claim that a failed
materialization leaves no partial track in the buffer. -/
theorem hawk_buffer_track_partial_counterexample :
    (hawk_buffer_track specConsts emptyStore onesUnit 0 0).ok = false ∧
    (hawk_buffer_track specConsts emptyStore onesUnit 0 0).unit.current_track_data 0 = 0 ∧
    onesUnit.current_track_data 0 = 1 := by
  have e0 : hawk_buffer_track specConsts emptyStore onesUnit 0 0 =
      hawk_buffer_sectors specConsts emptyStore 0 0 onesUnit
        (((0 <<< 5) ||| (0 <<< 4)) * specConsts.sector_bytes) 0
        specConsts.sects_per_trk := by
    simp only [hawk_buffer_track]
    rw [if_neg (by decide)]
  rw [e0]
  rw [show specConsts.sects_per_trk = 15 + 1 from rfl]
  rw [hawk_buffer_sectors]
  rw [if_neg (by decide)]
  refine ⟨rfl, ?_, rfl⟩
  apply hawk_sector_header_first_gap
  · decide
  · decide

lemma hawk_buffer_sectors_fail_at (cs : HawkConsts) (store : BackingStore)
    (c h : Nat) (hgr : cs.gap_bits ≤ cs.raw_sector_bits) :
    ∀ (k rem : Nat) (u : HawkUnit) (pos sector : Nat),
      k < rem →
      (∀ j, j < k → pos + j * cs.sector_bytes + cs.sector_bytes ≤ store.size) →
      store.size < pos + k * cs.sector_bytes + cs.sector_bytes →
      (hawk_buffer_sectors cs store c h u pos sector rem).ok = false ∧
      ∀ s, s ≤ k → ∀ i : Nat, i < cs.gap_bits →
        (hawk_buffer_sectors cs store c h u pos sector rem).unit.current_track_data
          ((((sector + s) * cs.raw_sector_bits : Nat) : Int) + (i : Int)) = 0 := by
  intro k
  induction k with
  | zero =>
    intro rem u pos sector hkr hpre hfail
    obtain ⟨m, rfl⟩ : ∃ m, rem = m + 1 := ⟨rem - 1, by omega⟩
    simp only [hawk_buffer_sectors]
    rw [if_neg (by
      have e : (0 : Nat) * cs.sector_bytes = 0 := by ring
      omega)]
    refine ⟨rfl, ?_⟩
    intro s hs i hi
    have hs0 : s = 0 := by omega
    subst hs0
    rw [Nat.add_zero]
    apply hawk_sector_header_first_gap
    · omega
    · omega
  | succ k ih =>
    intro rem u pos sector hkr hpre hfail
    obtain ⟨m, rfl⟩ : ∃ m, rem = m + 1 := ⟨rem - 1, by omega⟩
    simp only [hawk_buffer_sectors]
    have h0 : pos + cs.sector_bytes ≤ store.size := by
      have := hpre 0 (by omega)
      have e : (0 : Nat) * cs.sector_bytes = 0 := by ring
      omega
    rw [if_pos h0]
    have hpre2 : ∀ j, j < k →
        pos + cs.sector_bytes + j * cs.sector_bytes + cs.sector_bytes ≤ store.size := by
      intro j hj
      have := hpre (j + 1) (by omega)
      have e : (j + 1) * cs.sector_bytes = j * cs.sector_bytes + cs.sector_bytes := by
        ring
      omega
    have hfail2 : store.size <
        pos + cs.sector_bytes + k * cs.sector_bytes + cs.sector_bytes := by
      have e : (k + 1) * cs.sector_bytes = k * cs.sector_bytes + cs.sector_bytes := by
        ring
      omega
    obtain ⟨ihok, ihc⟩ := ih m _ (pos + cs.sector_bytes) (sector + 1) (by omega)
      hpre2 hfail2
    refine ⟨ihok, ?_⟩
    intro s hs i hi
    rcases Nat.eq_zero_or_pos s with hs0 | hspos
    case inr =>
      obtain ⟨t, rfl⟩ : ∃ t, s = t + 1 := ⟨s - 1, by omega⟩
      rw [BTResult_update_unit]
      have := ihc t (by omega) i hi
      rw [show sector + (t + 1) = sector + 1 + t from by omega]
      exact this
    subst hs0
    rw [BTResult_update_unit]
    simp only [Nat.add_zero]
    have hbound : ((sector * cs.raw_sector_bits : Nat) : Int) + (i : Int) <
        (((sector + 1) * cs.raw_sector_bits : Nat) : Int) := by
      have hb : sector * cs.raw_sector_bits + i <
          (sector + 1) * cs.raw_sector_bits := by
        have e : (sector + 1) * cs.raw_sector_bits =
            sector * cs.raw_sector_bits + cs.raw_sector_bits := by ring
        omega
      exact_mod_cast hb
    rw [hawk_buffer_sectors_low cs store c h m _ (pos + cs.sector_bytes)
      (sector + 1) _ hbound]
    obtain ⟨g9, e9⟩ := hawk_write_bits_low_frame (hawk_sector_header cs c h sector u)
      ((cs.sector_bytes * 8 : Nat) : Int)
      ((List.range cs.sector_bytes).map (fun j => store.byteAt (pos + j)))
      ((hawk_sector_header cs c h sector u).data_ptr) le_rfl
    obtain ⟨ga, ea⟩ := hawk_write_bits_low_frame _ 16 [204, 204] _ g9
    obtain ⟨gb, eb⟩ := hawk_set_bits_low_frame _ (cs.gap_bits / 2) 0 _ ga
    have hcell : ((sector * cs.raw_sector_bits : Nat) : Int) + (i : Int) <
        (hawk_sector_header cs c h sector u).data_ptr := by
      rw [hawk_sector_header_data_ptr]
      omega
    rw [eb _ hcell, ea _ hcell, e9 _ hcell]
    apply hawk_sector_header_first_gap
    · omega
    · omega

/-- Claim C8 (amended): if the backing-store read of any sector k is the
first to fail (all earlier sequential reads succeed, the k-th is short),
hawk_buffer_track reports failure through its return value, but it does
not restore the track buffer: the fields emitted before the failing read
stay written; in particular the first gap of every sector up to and
including the failing one still holds its zeros.  Failure is signalled
only by the return code, not by buffer atomicity.  The gap fits inside
one raw sector span (the span holds every emitted field), which the
hypothesis on the constants records. -/
theorem hawk_buffer_track_fail_partial_spec (cs : HawkConsts) (store : BackingStore)
    (u : HawkUnit) (cyl head : Nat) (hsf : store.seekFail = false)
    (hgr : cs.gap_bits ≤ cs.raw_sector_bits) (k : Nat) (hk : k < cs.sects_per_trk)
    (hpre : ∀ j, j < k → ((cyl <<< 5) ||| (head <<< 4)) * cs.sector_bytes
      + j * cs.sector_bytes + cs.sector_bytes ≤ store.size)
    (hfail : store.size < ((cyl <<< 5) ||| (head <<< 4)) * cs.sector_bytes
      + k * cs.sector_bytes + cs.sector_bytes) :
    (hawk_buffer_track cs store u cyl head).ok = false ∧
    ∀ s, s ≤ k → ∀ i : Nat, i < cs.gap_bits →
      (hawk_buffer_track cs store u cyl head).unit.current_track_data
        (((s * cs.raw_sector_bits : Nat) : Int) + (i : Int)) = 0 := by
  simp only [hawk_buffer_track]
  rw [if_neg (by simp [hsf])]
  obtain ⟨hok, hcells⟩ := hawk_buffer_sectors_fail_at cs store cyl head hgr k
    cs.sects_per_trk u _ 0 hk hpre hfail
  refine ⟨hok, ?_⟩
  intro s hs i hi
  have := hcells s hs i hi
  rwa [Nat.zero_add] at this

/-- Claim C9: during track materialization of (cylinder, head), the bytes
handed to the data-field write of sector s are exactly the backing-store
bytes at offset ((cylinder<<5) | (head<<4) | s) * SECTOR_BYTES: the one
initial positioning plus the fixed-length sequential reads realize
precisely the flat power-of-two-stride layout, for every sector below the
sector count. -/
theorem hawk_buffer_track_layout_spec (cs : HawkConsts) (store : BackingStore)
    (u : HawkUnit) (cyl head : Nat) (hh : head < 2) (hs : cs.sects_per_trk ≤ 16)
    (hok : (hawk_buffer_track cs store u cyl head).ok = true) :
    (hawk_buffer_track cs store u cyl head).reads =
      (List.range cs.sects_per_trk).map
        (fun s => (((cyl <<< 5) ||| (head <<< 4)) ||| s) * cs.sector_bytes) ∧
    (hawk_buffer_track cs store u cyl head).dataBufs =
      (List.range cs.sects_per_trk).map (fun s =>
        (List.range cs.sector_bytes).map (fun i =>
          store.byteAt ((((cyl <<< 5) ||| (head <<< 4)) ||| s) * cs.sector_bytes + i))) := by
  simp only [hawk_buffer_track] at hok ⊢
  by_cases hsf : store.seekFail = true
  · rw [if_pos hsf] at hok
    exact absurd hok (by simp)
  · rw [if_neg hsf] at hok ⊢
    obtain ⟨hr, hd⟩ := hawk_buffer_sectors_trace cs store cyl head
      cs.sects_per_trk u _ 0 hok
    rw [hr, hd]
    constructor
    · apply List.map_congr_left
      intro s hmem
      have hs16 : s < 16 := lt_of_lt_of_le (List.mem_range.mp hmem) hs
      rw [track_base_lor_sector cyl head s hh hs16, Nat.add_mul]
    · apply List.map_congr_left
      intro s hmem
      have hs16 : s < 16 := lt_of_lt_of_le (List.mem_range.mp hmem) hs
      apply List.map_congr_left
      intro i _
      rw [track_base_lor_sector cyl head s hh hs16, Nat.add_mul]

/-- Claim C2 (code-bug evidence): the address-field round trip cannot
hold on this code.  hawk_write_bits returns immediately without storing
anything whenever its count is nonzero (its guard is if (count--) return
before any store), so the 32 address bits are never written; and
hawk_read_bits returns after a single bit whenever its count is not 1, so
a 32-bit read produces one byte built from one cell.  Concretely, after a
successful materialization of track (0,0), the cell at bit offset 224
(which the claimed encoding would set to 1, the leading bit of the
complement word) holds 0, and reading 32 bits at the address-field offset
208 yields the single byte 0 instead of the four bytes 0, 0, 255, 255. -/
theorem hawk_addr_field_roundtrip_broken :
    (∀ (u : HawkUnit) (data : List Nat), hawk_write_bits u 32 data = u) ∧
    (∀ u : HawkUnit, (hawk_read_bits u 32).2 =
      [(u.current_track_data u.data_ptr <<< 7) % 256]) ∧
    (hawk_buffer_track specConsts flatStore idleUnit 0 0).ok = true ∧
    (hawk_buffer_track specConsts flatStore idleUnit 0 0).unit.current_track_data 224
      = 0 ∧
    (hawk_read_bits
      { (hawk_buffer_track specConsts flatStore idleUnit 0 0).unit with
        data_ptr := 208 } 32).2 = [0] := by
  have hgap2 : ∀ i : Int, 208 ≤ i → i < 328 →
      (hawk_buffer_track specConsts flatStore idleUnit 0 0).unit.current_track_data i
        = 0 := by
    intro i hi1 hi2
    have e0 : hawk_buffer_track specConsts flatStore idleUnit 0 0 =
        hawk_buffer_sectors specConsts flatStore 0 0 idleUnit
          (((0 <<< 5) ||| (0 <<< 4)) * specConsts.sector_bytes) 0
          specConsts.sects_per_trk := by
      simp only [hawk_buffer_track]
      rw [if_neg (by decide)]
    rw [e0]
    rw [show specConsts.sects_per_trk = 15 + 1 from rfl]
    have hlow : i < (hawk_sector_header specConsts 0 0 0 idleUnit).data_ptr := by
      rw [hawk_sector_header_data_ptr]
      simp only [specConsts]
      push_cast
      omega
    have hnext : i < (((0 + 1) * specConsts.raw_sector_bits : Nat) : Int) := by
      simp only [specConsts]
      push_cast
      omega
    rw [hawk_buffer_sectors_first_iteration specConsts flatStore 0 0 15 idleUnit
      (((0 <<< 5) ||| (0 <<< 4)) * specConsts.sector_bytes) 0 i hlow hnext]
    apply hawk_sector_header_second_gap
    · simp only [specConsts]
      push_cast
      omega
    · simp only [specConsts]
      push_cast
      omega
  refine ⟨?_, ?_, ?_, ?_, ?_⟩
  · intro u data
    exact hawk_write_bits_of_ne u 32 data (by norm_num)
  · intro u
    rw [hawk_read_bits_of_ne u 32 (by norm_num)]
  · exact hawk_buffer_track_ok_of specConsts flatStore idleUnit 0 0 rfl (by decide)
  · exact hgap2 224 (by norm_num) (by norm_num)
  · have h208 := hgap2 208 (by norm_num) (by norm_num)
    rw [hawk_read_bits_of_ne _ 32 (by norm_num)]
    simp [h208]

/-- A small constants instance (2 sectors of 2 bytes, short gaps and sync
fields), used to instantiate the layout theorem on a store small enough
to evaluate; the spec fixes no numeric values for these constants. -/
def demoConsts : HawkConsts :=
  { num_cylinders := 406
    sector_bytes := 2
    sects_per_trk := 2
    gap_bits := 4
    sync_bits := 4
    raw_sector_bits := 64
    raw_track_bits := 128
    rotation_ns := 25000000
    sector_ns := 12500000
    bit_ns := 1 }

/-- A store whose byte at offset n is n mod 256, 100 bytes long. -/
def rampStore : BackingStore := ⟨100, fun n => n % 256, false⟩

theorem hawk_seek_io_error_witness :
    idleUnit.seeking = 0 ∧ 5 < specConsts.num_cylinders ∧
    (hawk_seek specConsts seekFailStore idleUnit 5 0).buffer_result = some false ∧
    ∃ ev, (hawk_seek specConsts seekFailStore idleUnit 5 0).scheduled = some ev ∧
      ev.delta_ns = 500 * ONE_MILISECOND_NS ∧
      ev.seek_error = 1 ∧
      (hawk_seek_callback ev
        (hawk_seek specConsts seekFailStore idleUnit 5 0).unit).seek_error = 1 ∧
      (hawk_seek_callback ev
        (hawk_seek specConsts seekFailStore idleUnit 5 0).unit).on_cyl = 1 ∧
      (hawk_seek_callback ev
        (hawk_seek specConsts seekFailStore idleUnit 5 0).unit).seeking = 0 :=
  ⟨rfl, by decide, by decide,
   hawk_seek_io_error_spec specConsts seekFailStore idleUnit 5 0 rfl (by decide)
     (by decide)⟩

theorem hawk_seek_out_of_range_witness :
    idleUnit.seeking = 0 ∧ specConsts.num_cylinders ≤ 500 ∧
    ((hawk_seek specConsts seekFailStore idleUnit 500 0).unit.addr_int = 1 ∧
     (hawk_seek specConsts seekFailStore idleUnit 500 0).scheduled = none ∧
     (hawk_seek specConsts seekFailStore idleUnit 500 0).buffer_result = none ∧
     (hawk_seek specConsts seekFailStore idleUnit 500 0).unit.seeking = 1) :=
  ⟨rfl, by decide,
   hawk_seek_out_of_range_spec specConsts seekFailStore idleUnit 500 0 rfl (by decide)⟩

theorem hawk_rtz_witness :
    0 < specConsts.num_cylinders ∧
    ((hawk_rtz specConsts seekFailStore faultyUnit).unit.seek_error = 0 ∧
     (hawk_rtz specConsts seekFailStore faultyUnit).unit.fault = 0 ∧
     (hawk_rtz specConsts seekFailStore faultyUnit).unit.current_track = 0 ∧
     (hawk_rtz specConsts seekFailStore faultyUnit).unit.seeking = 1 ∧
     ∃ ev, (hawk_rtz specConsts seekFailStore faultyUnit).scheduled = some ev) :=
  ⟨by decide, hawk_rtz_spec specConsts seekFailStore faultyUnit (by decide)⟩

theorem hawk_update_periodic_witness :
    3 + idleUnit.rotation_offset + specConsts.rotation_ns < 2 ^ 64 ∧
    ((hawk_update specConsts idleUnit 3).head_pos =
      ((3 + idleUnit.rotation_offset) % specConsts.rotation_ns) * specConsts.bit_ns ∧
     (hawk_update specConsts idleUnit 3).sector_addr =
      ((3 + idleUnit.rotation_offset) % specConsts.rotation_ns) / specConsts.sector_ns ∧
     (hawk_update specConsts idleUnit (3 + specConsts.rotation_ns)).head_pos =
      (hawk_update specConsts idleUnit 3).head_pos ∧
     (hawk_update specConsts idleUnit (3 + specConsts.rotation_ns)).sector_addr =
      (hawk_update specConsts idleUnit 3).sector_addr) :=
  ⟨by decide, hawk_update_periodic specConsts idleUnit 3 (by decide)⟩

theorem hawk_wait_sector_delay_witness :
    2 < specConsts.sects_per_trk ∧
    specConsts.rotation_ns = specConsts.sects_per_trk * specConsts.sector_ns ∧
    5 + idleUnit.rotation_offset < 2 ^ 64 ∧
    0 ≤ (hawk_wait_sector specConsts idleUnit 5 2).delta_ns ∧
    (hawk_wait_sector specConsts idleUnit 5 2).delta_ns < (specConsts.rotation_ns : Int) :=
  ⟨by decide, by decide, by decide,
   (hawk_wait_sector_delay_spec specConsts idleUnit 5 2 (by decide) (by decide)
     (by decide) (by decide)).1,
   (hawk_wait_sector_delay_spec specConsts idleUnit 5 2 (by decide) (by decide)
     (by decide) (by decide)).2.1⟩

/-- A store holding the first two sectors of track (0,0) but truncated
before the third: the failing read is in the middle of the track. -/
def midStore : BackingStore := ⟨1000, fun _ => 9, false⟩

theorem hawk_buffer_track_fail_partial_witness :
    midStore.seekFail = false ∧
    specConsts.gap_bits ≤ specConsts.raw_sector_bits ∧
    2 < specConsts.sects_per_trk ∧
    midStore.size < ((0 <<< 5) ||| (0 <<< 4)) * specConsts.sector_bytes
      + 2 * specConsts.sector_bytes + specConsts.sector_bytes ∧
    ((hawk_buffer_track specConsts midStore idleUnit 0 0).ok = false ∧
     ∀ s, s ≤ 2 → ∀ i : Nat, i < specConsts.gap_bits →
       (hawk_buffer_track specConsts midStore idleUnit 0 0).unit.current_track_data
         (((s * specConsts.raw_sector_bits : Nat) : Int) + (i : Int)) = 0) :=
  ⟨rfl, by decide, by decide, by decide,
   hawk_buffer_track_fail_partial_spec specConsts midStore idleUnit 0 0 rfl
     (by decide) 2 (by decide)
     (by
       intro j hj
       interval_cases j <;> decide)
     (by decide)⟩

theorem hawk_buffer_track_layout_witness :
    (1 : Nat) < 2 ∧ demoConsts.sects_per_trk ≤ 16 ∧
    ((hawk_buffer_track demoConsts rampStore idleUnit 1 1).reads =
      (List.range demoConsts.sects_per_trk).map
        (fun s => (((1 <<< 5) ||| (1 <<< 4)) ||| s) * demoConsts.sector_bytes) ∧
     (hawk_buffer_track demoConsts rampStore idleUnit 1 1).dataBufs =
      (List.range demoConsts.sects_per_trk).map (fun s =>
        (List.range demoConsts.sector_bytes).map (fun i =>
          rampStore.byteAt ((((1 <<< 5) ||| (1 <<< 4)) ||| s) * demoConsts.sector_bytes
            + i)))) :=
  ⟨by decide, by decide,
   hawk_buffer_track_layout_spec demoConsts rampStore idleUnit 1 1 (by decide)
     (by decide) (by decide)⟩

theorem hawk_seek_seeking_noop_witness :
    seekingUnit.seeking ≠ 0 ∧
    hawk_seek specConsts seekFailStore seekingUnit 3 1 = ⟨seekingUnit, none, none⟩ ∧
    hawk_seek specConsts seekFailStore
        (hawk_seek specConsts seekFailStore idleUnit 500 0).unit 7 1 =
      ⟨(hawk_seek specConsts seekFailStore idleUnit 500 0).unit, none, none⟩ ∧
    (hawk_rtz specConsts seekFailStore
      (hawk_seek specConsts seekFailStore idleUnit 500 0).unit).scheduled ≠ none :=
  ⟨by decide,
   (hawk_seek_seeking_noop_spec specConsts seekFailStore seekFailStore seekingUnit
     3 1 7 1).1 (by decide),
   (hawk_seek_seeking_noop_spec specConsts seekFailStore seekFailStore idleUnit
     500 0 7 1).2.1 rfl (by decide),
   (hawk_seek_seeking_noop_spec specConsts seekFailStore seekFailStore idleUnit
     500 0 7 1).2.2 rfl (by decide) (by decide)⟩
